import Mathlib

/-!
Shallow embedding of the log-scanning core of
`Project-code/log_analyzer_module/log_analyzer.py`.

The filesystem is modelled as `Option (List LogFile)`: `none` is a missing
directory, `some files` an existing directory.  A `LogFile` carries its base
name, its content as a character list (characters stand for bytes; `os.stat`
size is the content length), and a `readable` flag (`false` makes `open`
raise `IOError`, the only failure path the source catches).
-/

/-- One file of the scanned directory.  `name` is the base filename
(`os.path.basename` of the glob result); `content` the full current bytes;
`readable = false` models an `IOError` on `open`/read. -/
structure LogFile where
  name : String
  content : List Char
  readable : Bool
deriving DecidableEq

/-- The configuration fields of `LogAnalyzer.__init__` that the scanning
claims depend on (`startup_msg`, `stop_msg`, `search_list`). -/
structure ScannerConfig where
  startup_msg : String
  stop_msg : String
  search_list : List String
deriving DecidableEq

/-- One recorded event, as appended by `_process_log_line` to
`stats["startup_events"]` / `stats["stop_events"]`. -/
structure Event where
  timestamp : String
  file : String
  line : String
deriving DecidableEq

/-- The `stats` dictionary: startup events, stop events, and the
`Counter` of matched search terms (modelled as an insertion-ordered
association list, like a Python dict/Counter). -/
structure Stats where
  startup_events : List Event
  stop_events : List Event
  message_counts : List (String × Nat)
deriving DecidableEq

/-- The fresh `stats` dictionary built at the top of `parse_logs` /
`parse_new_logs_only`. -/
def emptyStats : Stats := ⟨[], [], []⟩

/-- Python-dict lookup with default 0: `d.get(k, 0)`, also `Counter`'s
implicit 0 for missing keys. -/
def lookup0 : List (String × Nat) → String → Nat
  | [], _ => 0
  | (k', v) :: rest, k => if k' = k then v else lookup0 rest k

/-- Python-dict assignment `d[k] = v`: updates the first binding of `k`,
or appends a new binding (dicts preserve insertion order). -/
def updateKey : List (String × Nat) → String → Nat → List (String × Nat)
  | [], k, v => [(k, v)]
  | (k', v') :: rest, k, v =>
      if k' = k then (k', v) :: rest else (k', v') :: updateKey rest k v

/-- `Counter` increment `c[k] += 1`. -/
def incrKey (c : List (String × Nat)) (k : String) : List (String × Nat) :=
  updateKey c k (lookup0 c k + 1)

/-- Whether `pat` is a prefix of `s` (character lists). -/
def isPrefixL : List Char → List Char → Bool
  | [], _ => true
  | _ :: _, [] => false
  | a :: ps, b :: ss => a = b && isPrefixL ps ss

/-- Whether `pat` occurs as a contiguous run inside `s`. -/
def isSubstrL (pat : List Char) : List Char → Bool
  | [] => isPrefixL pat []
  | c :: rest => isPrefixL pat (c :: rest) || isSubstrL pat rest

/-- Python's substring operator `pat in line` (literal, case-sensitive). -/
def substr (pat line : String) : Bool :=
  isSubstrL pat.toList line.toList

/-- `os.path.basename`: the part of the path after the last `/`. -/
def basenameAux : List Char → List Char → List Char
  | [], acc => acc.reverse
  | c :: rest, acc => if c = '/' then basenameAux rest [] else basenameAux rest (c :: acc)

def basename (p : String) : String := ⟨basenameAux p.toList []⟩

/-- Python `str.strip()`: drop leading and trailing whitespace. -/
def dropLeadingWs : List Char → List Char
  | [] => []
  | c :: rest => if c.isWhitespace then dropLeadingWs rest else c :: rest

def stripStr (s : String) : String :=
  ⟨((dropLeadingWs ((dropLeadingWs s.toList).reverse)).reverse)⟩

/-- Anchored match of the compiled pattern
`(\d{2}-\d{2}-\d{4} \d{2}:\d{2}:\d{2})` at the head of the character list:
two digits, hyphen, two digits, hyphen, four digits, space, then three
colon-separated two-digit groups.  Pure digit-shape check, no range
validation. -/
def matchTimeAt (cs : List Char) : Option String :=
  match cs with
  | a::b::c::d::e::f::g::h::i::j::k::l::m::n::o::p::q::r::t::_ =>
      if a.isDigit && b.isDigit && c = '-' && d.isDigit && e.isDigit && f = '-' &&
         g.isDigit && h.isDigit && i.isDigit && j.isDigit && k = ' ' &&
         l.isDigit && m.isDigit && n = ':' && o.isDigit && p.isDigit && q = ':' &&
         r.isDigit && t.isDigit
      then some ⟨[a,b,c,d,e,f,g,h,i,j,k,l,m,n,o,p,q,r,t]⟩
      else none
  | _ => none

/-- `re.search` of the time pattern: the leftmost position where the
pattern matches, scanning left to right. -/
def searchTime : List Char → Option String
  | [] => none
  | c :: rest =>
      match matchTimeAt (c :: rest) with
      | some t => some t
      | none => searchTime rest

/-- `time_match.group(0) if time_match else "Unknown Time"`
(log_analyzer.py lines 138-139). -/
def mkTimestamp (line : String) : String :=
  match searchTime line.toList with
  | some t => t
  | none => "Unknown Time"

/-- Split a character stream into lines the way iterating a Python text
file does: each yielded line keeps its trailing newline; a final chunk
without a newline is still yielded; an empty stream yields nothing. -/
def splitLinesAux : List Char → List Char → List String
  | [], acc => if acc.isEmpty then [] else [⟨acc.reverse⟩]
  | c :: rest, acc =>
      if c = '\n' then (⟨(c :: acc).reverse⟩ : String) :: splitLinesAux rest []
      else splitLinesAux rest (c :: acc)

def splitLines (cs : List Char) : List String := splitLinesAux cs []

/-- One iteration of the `for msg in self.search_list` loop of
`_process_log_line` (lines 158-160): `if msg in line: counts[msg] += 1`. -/
def countStep (line : String) (s : Stats) (msg : String) : Stats :=
  if substr msg line then { s with message_counts := incrKey s.message_counts msg }
  else s

/-- `LogAnalyzer._process_log_line` (lines 129-160): extract a timestamp,
append a startup event if `startup_msg in line`, append a stop event if
`stop_msg in line`, and bump the counter of every `msg` of `search_list`
with `msg in line` by one. -/
def process_log_line (cfg : ScannerConfig) (line : String) (log_file : String)
    (stats : Stats) : Stats :=
  let timestamp := mkTimestamp line
  let stats1 :=
    if substr cfg.startup_msg line then
      { stats with startup_events :=
          stats.startup_events ++ [⟨timestamp, basename log_file, stripStr line⟩] }
    else stats
  let stats2 :=
    if substr cfg.stop_msg line then
      { stats1 with stop_events :=
          stats1.stop_events ++ [⟨timestamp, basename log_file, stripStr line⟩] }
    else stats1
  cfg.search_list.foldl (countStep line) stats2

/-- Whether a filename matches the glob pattern `*.log`: it ends in
`.log` and, per glob's hidden-file rule, does not start with `.`. -/
def matchesLogGlob (name : String) : Bool :=
  isPrefixL ".log".toList.reverse name.toList.reverse && !isPrefixL ['.'] name.toList

/-- `glob.glob(f"{directory_path}/*.log")`: on a missing directory the
glob silently yields `[]`; on an existing one, the files whose name
matches `*.log`, non-recursively. -/
def globLogs (fs : Option (List LogFile)) : List LogFile :=
  match fs with
  | none => []
  | some files => files.filter (fun f => matchesLogGlob f.name)

/-- Reading a file's lines from a byte offset: `open` + `seek(pos)` +
line iteration.  `none` models the `IOError` branch. -/
def readFileLines (f : LogFile) (pos : Nat) : Option (List String) :=
  if f.readable then some (splitLines (f.content.drop pos)) else none

/-- `LogAnalyzer._process_log_file` (lines 114-127): read the whole file
and classify every line; on `IOError` log and leave stats untouched. -/
def process_log_file (cfg : ScannerConfig) (f : LogFile) (stats : Stats) : Stats :=
  match readFileLines f 0 with
  | some ls => ls.foldl (fun s l => process_log_line cfg l f.name s) stats
  | none => stats

/-- `LogAnalyzer.parse_logs` (lines 39-64): glob the directory; with no
matching files print a message and return `None`; otherwise fold every
file into a fresh stats dictionary.  Faithful to the source, it neither
reads nor writes `file_positions`. -/
def parse_logs (cfg : ScannerConfig) (fs : Option (List LogFile)) : Option Stats :=
  let log_files := globLogs fs
  if log_files.isEmpty then none
  else some (log_files.foldl (fun s f => process_log_file cfg f s) emptyStats)

/-- The `file_positions` dictionary: path ↦ last read offset. -/
abbrev Positions := List (String × Nat)

/-- The body of the per-file loop of `parse_new_logs_only` (lines 86-111),
acting on the accumulator (stats, file_positions, new_entries_found):
stat the file; if it has grown past the recorded position, set
`new_entries_found`, then try to read from that position — on success
classify the new lines and record the end-of-read offset, on `IOError`
leave stats and position unchanged. -/
def scanStep (cfg : ScannerConfig) (acc : Stats × Positions × Bool) (f : LogFile) :
    Stats × Positions × Bool :=
  let file_size := f.content.length
  let last_position := lookup0 acc.2.1 f.name
  if last_position < file_size then
    match readFileLines f last_position with
    | some ls =>
        (ls.foldl (fun s l => process_log_line cfg l f.name s) acc.1,
         updateKey acc.2.1 f.name f.content.length, true)
    | none => (acc.1, acc.2.1, true)
  else acc

/-- `LogAnalyzer.parse_new_logs_only` (lines 66-112): glob; `None` when no
files; otherwise run the per-file loop and return the stats only when
`new_entries_found`, together with the updated `file_positions`. -/
def parse_new_logs_only (cfg : ScannerConfig) (fs : Option (List LogFile))
    (ps : Positions) : Option Stats × Positions :=
  let log_files := globLogs fs
  if log_files.isEmpty then (none, ps)
  else
    let r := log_files.foldl (scanStep cfg) (emptyStats, ps, false)
    (if r.2.2 then some r.1 else none, r.2.1)

/-- Truthiness of `any([startup_events, stop_events, message_counts])`
(lines 258-262): at least one of the three collections is non-empty. -/
def statsTruthy (s : Stats) : Bool :=
  !s.startup_events.isEmpty || !s.stop_events.isEmpty || !s.message_counts.isEmpty

/-- What one iteration of the monitoring loop does with the scan result. -/
inductive TickOutcome where
  | summarized (s : Stats)
  | noChange
deriving DecidableEq

/-- One tick of the `while True` body of `run_continuous_monitoring`
(lines 249-269): run `parse_new_logs_only`; invoke the summarizer only
when it returned data and at least one collection is non-empty, else
report "no new events"; always continue to the next tick. -/
def monitor_tick (cfg : ScannerConfig) (fs : Option (List LogFile))
    (ps : Positions) : TickOutcome × Positions :=
  let r := parse_new_logs_only cfg fs ps
  match r.1 with
  | some s => if statsTruthy s then (.summarized s, r.2) else (.noChange, r.2)
  | none => (.noChange, r.2)

/-! ### Helper lemmas -/

/-- The running configuration of the end-to-end scenarios: startup pattern
`"started"`, shutdown pattern `"stopped"`, keyword list `["ERROR"]`. -/
def cfg0 : ScannerConfig := ⟨"started", "stopped", ["ERROR"]⟩

theorem isPrefixL_iff : ∀ p l : List Char, isPrefixL p l = true ↔ p <+: l
  | [], l => by simp [isPrefixL]
  | a :: ps, [] => by simp [isPrefixL]
  | a :: ps, b :: ls => by
    simp only [isPrefixL, Bool.and_eq_true, decide_eq_true_eq, List.cons_prefix_cons,
      isPrefixL_iff ps ls]

theorem isSubstrL_iff : ∀ p l : List Char, isSubstrL p l = true ↔ p <:+: l
  | p, [] => by simp [isSubstrL, isPrefixL_iff, List.prefix_nil, List.infix_nil]
  | p, c :: ls => by
    simp [isSubstrL, isPrefixL_iff, isSubstrL_iff p ls, List.infix_cons_iff]

/-- `substr` is exactly the literal-substring relation. -/
theorem substr_iff (pat line : String) :
    substr pat line = true ↔ pat.toList <:+: line.toList := by
  simp [substr, isSubstrL_iff]

theorem lookup0_updateKey_self (ps : List (String × Nat)) (k : String) (v : Nat) :
    lookup0 (updateKey ps k v) k = v := by
  induction ps with
  | nil => simp [updateKey, lookup0]
  | cons p rest ih =>
    obtain ⟨k', v'⟩ := p
    by_cases h : k' = k
    · simp [updateKey, h, lookup0]
    · simp [updateKey, h, lookup0, ih]

theorem lookup0_updateKey_ne (ps : List (String × Nat)) {k k' : String} (v : Nat)
    (h : k' ≠ k) : lookup0 (updateKey ps k v) k' = lookup0 ps k' := by
  have hne : k = k' → False := fun hh => h hh.symm
  induction ps with
  | nil =>
    simp only [updateKey, lookup0]
    exact if_neg hne
  | cons p rest ih =>
    obtain ⟨k'', v''⟩ := p
    by_cases hk : k'' = k
    · subst hk
      simp only [updateKey, if_pos rfl, lookup0]
      rw [if_neg hne, if_neg hne]
    · simp only [updateKey, if_neg hk, lookup0, ih]

theorem lookup0_incrKey_self (c : List (String × Nat)) (k : String) :
    lookup0 (incrKey c k) k = lookup0 c k + 1 := by
  simp [incrKey, lookup0_updateKey_self]

theorem lookup0_incrKey_ne (c : List (String × Nat)) {k k' : String} (h : k' ≠ k) :
    lookup0 (incrKey c k) k' = lookup0 c k' := by
  simp [incrKey, lookup0_updateKey_ne _ _ h]

theorem countStep_startup (line : String) (s : Stats) (k : String) :
    (countStep line s k).startup_events = s.startup_events := by
  unfold countStep; split <;> rfl

theorem countStep_stop (line : String) (s : Stats) (k : String) :
    (countStep line s k).stop_events = s.stop_events := by
  unfold countStep; split <;> rfl

theorem countFold_startup (line : String) :
    ∀ (ks : List String) (s : Stats),
      (ks.foldl (countStep line) s).startup_events = s.startup_events
  | [], _ => rfl
  | k :: rest, s => by
    simp only [List.foldl_cons]
    rw [countFold_startup line rest _, countStep_startup]

theorem countFold_stop (line : String) :
    ∀ (ks : List String) (s : Stats),
      (ks.foldl (countStep line) s).stop_events = s.stop_events
  | [], _ => rfl
  | k :: rest, s => by
    simp only [List.foldl_cons]
    rw [countFold_stop line rest _, countStep_stop]

theorem countFold_lookup_notmem (line : String) :
    ∀ (ks : List String) (s : Stats) {k : String}, k ∉ ks →
      lookup0 (ks.foldl (countStep line) s).message_counts k
        = lookup0 s.message_counts k
  | [], _, _, _ => rfl
  | m :: rest, s, k, hk => by
    have hm : k ≠ m := fun e => hk (e ▸ List.mem_cons_self m rest)
    have hr : k ∉ rest := fun e => hk (List.mem_cons_of_mem m e)
    simp only [List.foldl_cons]
    rw [countFold_lookup_notmem line rest _ hr]
    unfold countStep
    split
    · exact lookup0_incrKey_ne _ hm
    · rfl

theorem countFold_lookup_mem (line : String) :
    ∀ (ks : List String) (s : Stats) {k : String}, ks.Nodup → k ∈ ks →
      lookup0 (ks.foldl (countStep line) s).message_counts k
        = lookup0 s.message_counts k + (if substr k line = true then 1 else 0)
  | [], _, _, _, hk => absurd hk (List.not_mem_nil _)
  | m :: rest, s, k, hnd, hk => by
    simp only [List.foldl_cons]
    rcases List.mem_cons.mp hk with hkm | hkr
    · subst hkm
      have hnotr : k ∉ rest := (List.nodup_cons.mp hnd).1
      rw [countFold_lookup_notmem line rest _ hnotr]
      unfold countStep
      by_cases hsub : substr k line = true
      · rw [if_pos hsub, if_pos hsub]
        simp [lookup0_incrKey_self]
      · rw [if_neg hsub, if_neg hsub]
        omega
    · have hm : k ≠ m := fun e => (List.nodup_cons.mp hnd).1 (e ▸ hkr)
      rw [countFold_lookup_mem line rest _ (List.nodup_cons.mp hnd).2 hkr]
      have hc : lookup0 (countStep line s m).message_counts k
          = lookup0 s.message_counts k := by
        unfold countStep
        split
        · exact lookup0_incrKey_ne _ hm
        · rfl
      rw [hc]

theorem process_log_line_startup (cfg : ScannerConfig) (line lf : String) (s : Stats) :
    (process_log_line cfg line lf s).startup_events
      = s.startup_events ++
        (if substr cfg.startup_msg line = true then
          [⟨mkTimestamp line, basename lf, stripStr line⟩] else []) := by
  unfold process_log_line
  rw [countFold_startup]
  by_cases h1 : substr cfg.startup_msg line = true <;>
    by_cases h2 : substr cfg.stop_msg line = true <;> simp [h1, h2]

theorem process_log_line_stop (cfg : ScannerConfig) (line lf : String) (s : Stats) :
    (process_log_line cfg line lf s).stop_events
      = s.stop_events ++
        (if substr cfg.stop_msg line = true then
          [⟨mkTimestamp line, basename lf, stripStr line⟩] else []) := by
  unfold process_log_line
  rw [countFold_stop]
  by_cases h1 : substr cfg.startup_msg line = true <;>
    by_cases h2 : substr cfg.stop_msg line = true <;> simp [h1, h2]

theorem process_log_line_counts (cfg : ScannerConfig) (line lf : String) (s : Stats)
    (hnd : cfg.search_list.Nodup) {k : String} (hk : k ∈ cfg.search_list) :
    lookup0 (process_log_line cfg line lf s).message_counts k
      = lookup0 s.message_counts k + (if substr k line = true then 1 else 0) := by
  unfold process_log_line
  rw [countFold_lookup_mem _ _ _ hnd hk]
  congr 2
  by_cases h1 : substr cfg.startup_msg line = true <;>
    by_cases h2 : substr cfg.stop_msg line = true <;> simp [h1, h2]

/-- Case characterization of one step of the incremental per-file loop. -/
theorem scanStep_eq (cfg : ScannerConfig) (acc : Stats × Positions × Bool) (f : LogFile) :
    scanStep cfg acc f =
      if lookup0 acc.2.1 f.name < f.content.length then
        if f.readable then
          ((splitLines (f.content.drop (lookup0 acc.2.1 f.name))).foldl
             (fun s l => process_log_line cfg l f.name s) acc.1,
           updateKey acc.2.1 f.name f.content.length, true)
        else (acc.1, acc.2.1, true)
      else acc := by
  unfold scanStep readFileLines
  by_cases h : lookup0 acc.2.1 f.name < f.content.length <;>
    by_cases hr : f.readable <;> simp [h, hr]

theorem scanStep_pos_mono (cfg : ScannerConfig) (acc : Stats × Positions × Bool)
    (f : LogFile) (k : String) :
    lookup0 acc.2.1 k ≤ lookup0 (scanStep cfg acc f).2.1 k := by
  rw [scanStep_eq]
  by_cases h : lookup0 acc.2.1 f.name < f.content.length
  · by_cases hr : f.readable
    · simp only [if_pos h, if_pos hr]
      by_cases hk : k = f.name
      · subst hk
        rw [lookup0_updateKey_self]
        exact le_of_lt h
      · rw [lookup0_updateKey_ne _ _ hk]
    · simp [h, hr]
  · simp [h]

theorem scanStep_pos_ge (cfg : ScannerConfig) (acc : Stats × Positions × Bool)
    (f : LogFile) (hr : f.readable = true) :
    f.content.length ≤ lookup0 (scanStep cfg acc f).2.1 f.name := by
  rw [scanStep_eq]
  by_cases h : lookup0 acc.2.1 f.name < f.content.length
  · simp [h, hr, lookup0_updateKey_self]
  · simp only [if_neg h]
    omega

theorem scanStep_nogrow (cfg : ScannerConfig) (acc : Stats × Positions × Bool)
    (f : LogFile) (h : f.content.length ≤ lookup0 acc.2.1 f.name) :
    scanStep cfg acc f = acc := by
  rw [scanStep_eq, if_neg (by omega)]

theorem foldl_scanStep_pos_mono (cfg : ScannerConfig) :
    ∀ (files : List LogFile) (acc : Stats × Positions × Bool) (k : String),
      lookup0 acc.2.1 k ≤ lookup0 (files.foldl (scanStep cfg) acc).2.1 k
  | [], _, _ => le_refl _
  | f :: rest, acc, k =>
    le_trans (scanStep_pos_mono cfg acc f k)
      (foldl_scanStep_pos_mono cfg rest (scanStep cfg acc f) k)

theorem foldl_scanStep_pos_ge (cfg : ScannerConfig) :
    ∀ (files : List LogFile) (acc : Stats × Positions × Bool),
      (∀ f ∈ files, f.readable = true) → ∀ f ∈ files,
        f.content.length ≤ lookup0 (files.foldl (scanStep cfg) acc).2.1 f.name
  | [], _, _, f, hf => absurd hf (List.not_mem_nil f)
  | g :: rest, acc, hr, f, hf => by
    simp only [List.foldl_cons]
    rcases List.mem_cons.mp hf with he | hm
    · subst he
      exact le_trans (scanStep_pos_ge cfg acc f (hr f (List.mem_cons_self f rest)))
        (foldl_scanStep_pos_mono cfg rest _ f.name)
    · exact foldl_scanStep_pos_ge cfg rest _
        (fun x hx => hr x (List.mem_cons_of_mem g hx)) f hm

theorem foldl_scanStep_nogrow (cfg : ScannerConfig) :
    ∀ (files : List LogFile) (acc : Stats × Positions × Bool),
      (∀ f ∈ files, f.content.length ≤ lookup0 acc.2.1 f.name) →
      files.foldl (scanStep cfg) acc = acc
  | [], _, _ => rfl
  | f :: rest, acc, h => by
    simp only [List.foldl_cons]
    rw [scanStep_nogrow cfg acc f (h f (List.mem_cons_self f rest))]
    exact foldl_scanStep_nogrow cfg rest acc (fun x hx => h x (List.mem_cons_of_mem f hx))

/-- When every readable file is already fully consumed, the per-file loop
changes neither the stats nor the positions; `new_entries_found` ends up
true exactly when some (necessarily unreadable) file has grown. -/
theorem foldl_scanStep_stall (cfg : ScannerConfig) :
    ∀ (files : List LogFile) (s : Stats) (ps : Positions) (b : Bool),
      (∀ f ∈ files, f.readable = true → f.content.length ≤ lookup0 ps f.name) →
      files.foldl (scanStep cfg) (s, ps, b)
        = (s, ps, b || files.any (fun f => decide (lookup0 ps f.name < f.content.length)))
  | [], s, ps, b, _ => by simp
  | f :: rest, s, ps, b, h => by
    simp only [List.foldl_cons, List.any_cons]
    have hstep : scanStep cfg (s, ps, b) f
        = (s, ps, b || decide (lookup0 ps f.name < f.content.length)) := by
      rw [scanStep_eq]
      by_cases hg : lookup0 ps f.name < f.content.length
      · have hur : f.readable = false := by
          by_cases hrd : f.readable = true
          · exfalso
            have := h f (List.mem_cons_self f rest) hrd
            omega
          · simpa using hrd
        simp [hg, hur]
      · simp [hg]
    rw [hstep,
      foldl_scanStep_stall cfg rest s ps _ (fun x hx hr => h x (List.mem_cons_of_mem f hx) hr)]
    simp [Bool.or_assoc]

/-! ### Claim theorems -/

/-- C1 (code bug): `parse_logs` is claimed (and its call site's comment
"Initial scan to set file positions" promises) to seed `file_positions`
with every file's end-of-file offset, so that the next incremental scan
reads nothing.  The source's `parse_logs` never touches `file_positions`
(the only write is inside `parse_new_logs_only`), hence after a full scan
the positions are still the `__init__` value `{}` and the next
`parse_new_logs_only` re-reads the whole file, returning the very same
statistics instead of the claimed "no new data"; with the promised
baseline (offset 28 = end of file) it would have returned `None`. -/
theorem claim_C1_baseline_not_seeded :
    parse_logs cfg0 (some [⟨"app.log", "01-01-2024 10:00:00 started\n".toList, true⟩])
      = some ⟨[⟨"01-01-2024 10:00:00", "app.log", "01-01-2024 10:00:00 started"⟩], [], []⟩
    ∧ (parse_new_logs_only cfg0
        (some [⟨"app.log", "01-01-2024 10:00:00 started\n".toList, true⟩]) []).1
      = some ⟨[⟨"01-01-2024 10:00:00", "app.log", "01-01-2024 10:00:00 started"⟩], [], []⟩
    ∧ (parse_new_logs_only cfg0
        (some [⟨"app.log", "01-01-2024 10:00:00 started\n".toList, true⟩])
        [("app.log", 28)]).1 = none := by
  decide

/-- C2 (counterexample): a file of 6 bytes whose recorded cursor is 100
(truncation).  The claim says the next incremental scan resets the cursor
to 0 and classifies the whole content (which would count `"ERROR"` once);
the code skips the file entirely: it returns `None` and the cursor stays
at the stale value 100. -/
theorem claim_C2_counterexample :
    (parse_new_logs_only cfg0 (some [⟨"trunc.log", "ERROR\n".toList, true⟩])
        [("trunc.log", 100)]).1 = none
    ∧ lookup0 (parse_new_logs_only cfg0 (some [⟨"trunc.log", "ERROR\n".toList, true⟩])
        [("trunc.log", 100)]).2 "trunc.log" = 100 := by
  decide

/-- C2 (amended): for every file whose current size is strictly below its
recorded cursor, `parse_new_logs_only` does not detect truncation: the
file contributes nothing, its cursor keeps its stale value (it is not
reset to 0), and none of the file's content is classified — here stated
for a directory holding that file alone, where the scan returns the
"no new data" absence with the positions unchanged. -/
theorem claim_C2_truncation_skipped (cfg : ScannerConfig) (st : Positions) (f : LogFile)
    (hglob : matchesLogGlob f.name = true)
    (hlt : f.content.length < lookup0 st f.name) :
    parse_new_logs_only cfg (some [f]) st = (none, st) := by
  have hg : globLogs (some [f]) = [f] := by simp [globLogs, hglob]
  simp only [parse_new_logs_only, hg, List.isEmpty_cons, List.foldl_cons, List.foldl_nil]
  rw [scanStep_nogrow cfg (emptyStats, st, false) f (le_of_lt hlt)]
  simp

/-- Witness for the amended C2 at a concrete truncated file. -/
theorem claim_C2_witness :
    parse_new_logs_only cfg0 (some [⟨"w.log", "ERROR\n".toList, true⟩]) [("w.log", 42)]
      = (none, [("w.log", 42)]) :=
  claim_C2_truncation_skipped cfg0 [("w.log", 42)] ⟨"w.log", "ERROR\n".toList, true⟩
    (by decide) (by decide)

/-- C4 (counterexample): a missing directory (`none`) is not a fatal
enumeration error: `glob` yields `[]`, `parse_logs` returns the very same
`None` as for an existing directory with no `.log` files, and the monitor
loop's tick treats it as an ordinary "no new events" tick and continues
— no error is surfaced and the loop does not terminate. -/
theorem claim_C4_counterexample :
    parse_logs cfg0 none = none
    ∧ parse_logs cfg0 (some []) = none
    ∧ monitor_tick cfg0 none [] = (TickOutcome.noChange, []) := by
  decide

/-- C4 (amended): a missing directory and an existing directory with no
matching files are indistinguishable: full and incremental scans return
identical results in the two situations, and a monitoring tick on a
missing directory is a plain "no change" tick that leaves the positions
intact (the loop keeps polling; nothing terminates it). -/
theorem claim_C4_missing_dir_not_fatal (cfg : ScannerConfig) (st : Positions) :
    parse_logs cfg none = parse_logs cfg (some [])
    ∧ parse_new_logs_only cfg none st = parse_new_logs_only cfg (some []) st
    ∧ monitor_tick cfg none st = (TickOutcome.noChange, st) :=
  ⟨rfl, rfl, rfl⟩

/-- C5 (counterexample): on an existing directory with no `.log` files,
`parse_logs` returns the null value `None`, not the claimed
empty-but-valid Statistics. -/
theorem claim_C5_counterexample :
    parse_logs cfg0 (some []) = none
    ∧ parse_logs cfg0 (some []) ≠ some emptyStats := by
  decide

/-- C5 (amended): whenever the glob finds no matching file in an existing
directory, `parse_logs` returns `None` (the absence value) rather than an
empty Statistics; the only "no files" signal is a printed message, not
the return value. -/
theorem claim_C5_no_files_returns_none (cfg : ScannerConfig) (files : List LogFile)
    (h : globLogs (some files) = []) : parse_logs cfg (some files) = none := by
  simp [parse_logs, h]

/-- Witness for the amended C5: a directory holding only a non-`.log`
file. -/
theorem claim_C5_witness :
    parse_logs cfg0 (some [⟨"notes.txt", "ERROR started\n".toList, true⟩]) = none :=
  claim_C5_no_files_returns_none cfg0 [⟨"notes.txt", "ERROR started\n".toList, true⟩]
    (by decide)

/-- C3 (counterexample): one file grows by the line `"hello\n"`, which
matches no pattern.  `parse_new_logs_only` returns a populated Statistics
whose events and counts are all empty, yet the monitoring tick does
**not** forward it to the summarizer: it takes the "No new events
detected" branch, because the loop requires
`any([startup_events, stop_events, message_counts])` on top of a
non-`None` result. -/
theorem claim_C3_counterexample :
    (parse_new_logs_only cfg0 (some [⟨"plain.log", "hello\n".toList, true⟩])
        [("plain.log", 0)]).1 = some emptyStats
    ∧ monitor_tick cfg0 (some [⟨"plain.log", "hello\n".toList, true⟩]) [("plain.log", 0)]
      = (TickOutcome.noChange, [("plain.log", 6)]) := by
  decide

/-- C3 (amended): the monitoring tick invokes the summarizer exactly when
the incremental scan returned data **and** at least one of the three
collections is non-empty; a populated-but-all-empty Statistics (new bytes
with no matches) is reported as "no new events" and skipped, just like
the `None` absence result. -/
theorem claim_C3_summarize_iff_nonempty (cfg : ScannerConfig)
    (fs : Option (List LogFile)) (st : Positions) (s : Stats) :
    (monitor_tick cfg fs st).1 = TickOutcome.summarized s
      ↔ (parse_new_logs_only cfg fs st).1 = some s ∧ statsTruthy s = true := by
  unfold monitor_tick
  cases h : (parse_new_logs_only cfg fs st).1 with
  | none => simp [h]
  | some t =>
    by_cases ht : statsTruthy t = true
    · simp only [h, if_pos ht, Option.some.injEq, TickOutcome.summarized.injEq]
      constructor
      · rintro rfl
        exact ⟨rfl, ht⟩
      · rintro ⟨rfl, _⟩
        rfl
    · simp only [h, if_neg ht, Option.some.injEq]
      constructor
      · intro he
        cases he
      · rintro ⟨rfl, hs⟩
        exact absurd hs ht

/-- C6: classification of one line.  Startup and stop events are appended
iff the corresponding configured pattern occurs as a literal substring of
the line (both can fire on the same line, each recording its event), and
for every configured keyword (the keyword list being a set, i.e. without
duplicates) its count grows by exactly one iff the keyword occurs as a
substring — independent of how many times it occurs inside the line. -/
theorem claim_C6_classification (cfg : ScannerConfig) (line lf : String) (s : Stats)
    (hnd : cfg.search_list.Nodup) :
    ((process_log_line cfg line lf s).startup_events
        = s.startup_events ++
          (if cfg.startup_msg.toList <:+: line.toList then
            [⟨mkTimestamp line, basename lf, stripStr line⟩] else []))
    ∧ ((process_log_line cfg line lf s).stop_events
        = s.stop_events ++
          (if cfg.stop_msg.toList <:+: line.toList then
            [⟨mkTimestamp line, basename lf, stripStr line⟩] else []))
    ∧ ∀ k ∈ cfg.search_list,
        lookup0 (process_log_line cfg line lf s).message_counts k
          = lookup0 s.message_counts k
            + (if k.toList <:+: line.toList then 1 else 0) := by
  refine ⟨?_, ?_, ?_⟩
  · rw [process_log_line_startup]
    congr 1
    by_cases h : cfg.startup_msg.toList <:+: line.toList
    · rw [if_pos ((substr_iff _ _).mpr h), if_pos h]
    · rw [if_neg (fun hh => h ((substr_iff _ _).mp hh)), if_neg h]
  · rw [process_log_line_stop]
    congr 1
    by_cases h : cfg.stop_msg.toList <:+: line.toList
    · rw [if_pos ((substr_iff _ _).mpr h), if_pos h]
    · rw [if_neg (fun hh => h ((substr_iff _ _).mp hh)), if_neg h]
  · intro k hk
    rw [process_log_line_counts cfg line lf s hnd hk]
    congr 1
    by_cases h : k.toList <:+: line.toList
    · rw [if_pos ((substr_iff _ _).mpr h), if_pos h]
    · rw [if_neg (fun hh => h ((substr_iff _ _).mp hh)), if_neg h]

/-- Witness for C6 on a line that is simultaneously a startup and a stop
line and contains the keyword `"ERROR"` twice: one startup event, one
stop event, and a count increment of exactly 1 (not 2). -/
theorem claim_C6_witness :
    (process_log_line cfg0 "started and stopped ERROR then ERROR" "m.log"
        emptyStats).startup_events.length = 1
    ∧ (process_log_line cfg0 "started and stopped ERROR then ERROR" "m.log"
        emptyStats).stop_events.length = 1
    ∧ lookup0 (process_log_line cfg0 "started and stopped ERROR then ERROR" "m.log"
        emptyStats).message_counts "ERROR" = 1 := by
  have h := claim_C6_classification cfg0 "started and stopped ERROR then ERROR" "m.log"
    emptyStats (by decide)
  refine ⟨?_, ?_, ?_⟩
  · rw [h.1]
    decide
  · rw [h.2.1]
    decide
  · rw [h.2.2 "ERROR" (by decide)]
    decide

/-- C8 (counterexample): the sentinel recorded for a line without a
timestamp is the string `"Unknown Time"`, not the claimed `"unknown"`. -/
theorem claim_C8_counterexample :
    (process_log_line cfg0 "system started" "app.log" emptyStats).startup_events
      = [⟨"Unknown Time", "app.log", "system started"⟩]
    ∧ ("Unknown Time" : String) ≠ "unknown" := by
  decide

/-- C8 (amended): classification is a total function (no exception can
propagate — in the source, `re.search` and `in` never raise), and every
event it records for a line on which timestamp extraction finds no match
carries the sentinel timestamp `"Unknown Time"`. -/
theorem claim_C8_unknown_sentinel (cfg : ScannerConfig) (line lf : String) (s : Stats)
    (hnone : searchTime line.toList = none) :
    (∀ e ∈ (process_log_line cfg line lf s).startup_events,
        e ∈ s.startup_events ∨ e.timestamp = "Unknown Time")
    ∧ (∀ e ∈ (process_log_line cfg line lf s).stop_events,
        e ∈ s.stop_events ∨ e.timestamp = "Unknown Time") := by
  have ht : mkTimestamp line = "Unknown Time" := by
    have h' : searchTime line.data = none := hnone
    simp [mkTimestamp, h']
  constructor
  · intro e he
    rw [process_log_line_startup] at he
    rcases List.mem_append.mp he with h | h
    · exact Or.inl h
    · right
      split at h
      · rw [List.mem_singleton.mp h]
        exact ht
      · cases h
  · intro e he
    rw [process_log_line_stop] at he
    rcases List.mem_append.mp he with h | h
    · exact Or.inl h
    · right
      split at h
      · rw [List.mem_singleton.mp h]
        exact ht
      · cases h

/-- Witness for the amended C8 at a concrete timestamp-free line. -/
theorem claim_C8_witness :
    (⟨"Unknown Time", "w.log", "service started"⟩ : Event) ∈ emptyStats.startup_events
    ∨ Event.timestamp ⟨"Unknown Time", "w.log", "service started"⟩ = "Unknown Time" :=
  (claim_C8_unknown_sentinel cfg0 "service started" "w.log" emptyStats (by decide)).1
    ⟨"Unknown Time", "w.log", "service started"⟩ (by decide)

/-- C7 (counterexample): the quantification "for every scanner state and
every directory contents" also covers a grown file that cannot be read.
With a one-byte unreadable `a.log` and an empty position map, the file
looks grown on **both** calls (the failed read leaves its cursor at 0),
so the second `parse_new_logs_only` again returns a populated (empty)
Statistics instead of the claimed "no new data" absence. -/
theorem claim_C7_counterexample :
    (parse_new_logs_only cfg0 (some [⟨"a.log", ['E'], false⟩])
        (parse_new_logs_only cfg0 (some [⟨"a.log", ['E'], false⟩]) []).2).1
      = some emptyStats := by
  decide

/-- C7 (amended): provided every enumerated file is readable (no read
error), a second `parse_new_logs_only` with no file changes in between
returns the "no new data" absence: the first call advances every grown
file's cursor to its end of file, so no file can look grown again. -/
theorem claim_C7_incremental_idempotent (cfg : ScannerConfig)
    (fs : Option (List LogFile)) (st : Positions)
    (hr : ∀ f ∈ globLogs fs, f.readable = true) :
    (parse_new_logs_only cfg fs (parse_new_logs_only cfg fs st).2).1 = none := by
  have hdef : ∀ ps : Positions, parse_new_logs_only cfg fs ps =
      if (globLogs fs).isEmpty = true then (none, ps)
      else
        ((if ((globLogs fs).foldl (scanStep cfg) (emptyStats, ps, false)).2.2 = true then
            some ((globLogs fs).foldl (scanStep cfg) (emptyStats, ps, false)).1
          else none),
         ((globLogs fs).foldl (scanStep cfg) (emptyStats, ps, false)).2.1) :=
    fun _ => rfl
  by_cases he : (globLogs fs).isEmpty = true
  · rw [hdef, if_pos he]
  · have hge := foldl_scanStep_pos_ge cfg (globLogs fs) (emptyStats, st, false) hr
    have hsnd : (parse_new_logs_only cfg fs st).2
        = ((globLogs fs).foldl (scanStep cfg) (emptyStats, st, false)).2.1 := by
      rw [hdef, if_neg he]
    rw [hsnd, hdef, if_neg he,
      foldl_scanStep_nogrow cfg (globLogs fs)
        (emptyStats, ((globLogs fs).foldl (scanStep cfg) (emptyStats, st, false)).2.1, false)
        (fun f hf => hge f hf)]
    rfl

/-- Witness for the amended C7: one readable file, scanned twice. -/
theorem claim_C7_witness :
    (parse_new_logs_only cfg0 (some [⟨"app.log", "ERROR x\n".toList, true⟩])
        (parse_new_logs_only cfg0 (some [⟨"app.log", "ERROR x\n".toList, true⟩]) []).2).1
      = none :=
  claim_C7_incremental_idempotent cfg0 (some [⟨"app.log", "ERROR x\n".toList, true⟩]) []
    (by decide)

/-- C9: if some enumerated file has grown past its cursor but its read
fails with an `IOError`, and no readable file has anything new, then
`parse_new_logs_only` still returns a Statistics object — all of whose
events and counts are empty — rather than the absence result, because
`new_entries_found` is set *before* the read is attempted; and every
cursor, in particular the failed file's, is left unchanged. -/
theorem claim_C9_ioerror_still_populated (cfg : ScannerConfig)
    (fs : Option (List LogFile)) (st : Positions)
    (hex : ∃ f ∈ globLogs fs, f.readable = false ∧ lookup0 st f.name < f.content.length)
    (hro : ∀ f ∈ globLogs fs, f.readable = true → f.content.length ≤ lookup0 st f.name) :
    parse_new_logs_only cfg fs st = (some emptyStats, st) := by
  obtain ⟨f0, hf0, hur, hgrow⟩ := hex
  have hne : ¬(globLogs fs).isEmpty = true := by
    intro hemp
    rw [List.isEmpty_iff.mp hemp] at hf0
    exact List.not_mem_nil f0 hf0
  have hany : (globLogs fs).any
      (fun f => decide (lookup0 st f.name < f.content.length)) = true :=
    List.any_eq_true.mpr ⟨f0, hf0, by simpa using hgrow⟩
  simp only [parse_new_logs_only, hne, if_false]
  rw [foldl_scanStep_stall cfg (globLogs fs) emptyStats st false hro]
  simp [hany]

/-- Witness for C9: a single unreadable one-byte file with no recorded
cursor. -/
theorem claim_C9_witness :
    parse_new_logs_only cfg0 (some [⟨"err.log", ['E'], false⟩]) []
      = (some emptyStats, []) :=
  claim_C9_ioerror_still_populated cfg0 (some [⟨"err.log", ['E'], false⟩]) []
    (by decide) (by decide)

/-- C10: timestamp extraction is a pure digit-shape match.  (i) Any
nineteen characters laid out as two digits, `-`, two digits, `-`, four
digits, space, and three colon-separated two-digit groups are accepted by
the anchored matcher, whatever the digit values (no range validation);
(ii) the search returns the match at the leftmost matching position;
(iii) concretely, the all-nines non-date `"99-99-9999 99:99:99"` is
extracted verbatim. -/
theorem claim_C10_shape_only_first_match :
    (∀ (d1 d2 d3 d4 d5 d6 d7 d8 d9 d10 d11 d12 d13 d14 : Char) (rest : List Char),
      d1.isDigit = true → d2.isDigit = true → d3.isDigit = true → d4.isDigit = true →
      d5.isDigit = true → d6.isDigit = true → d7.isDigit = true → d8.isDigit = true →
      d9.isDigit = true → d10.isDigit = true → d11.isDigit = true → d12.isDigit = true →
      d13.isDigit = true → d14.isDigit = true →
      matchTimeAt ([d1, d2, '-', d3, d4, '-', d5, d6, d7, d8, ' ',
                    d9, d10, ':', d11, d12, ':', d13, d14] ++ rest)
        = some ⟨[d1, d2, '-', d3, d4, '-', d5, d6, d7, d8, ' ',
                 d9, d10, ':', d11, d12, ':', d13, d14]⟩)
    ∧ (∀ (l : List Char) (i : Nat) (t : String),
        matchTimeAt (l.drop i) = some t →
        (∀ j, j < i → matchTimeAt (l.drop j) = none) →
        searchTime l = some t)
    ∧ searchTime "date 99-99-9999 99:99:99 end".toList = some "99-99-9999 99:99:99" := by
  refine ⟨?_, ?_, by decide⟩
  · intro d1 d2 d3 d4 d5 d6 d7 d8 d9 d10 d11 d12 d13 d14 rest
    intro h1 h2 h3 h4 h5 h6 h7 h8 h9 h10 h11 h12 h13 h14
    simp [matchTimeAt, h1, h2, h3, h4, h5, h6, h7, h8, h9, h10, h11, h12, h13, h14]
  · intro l
    induction l with
    | nil =>
      intro i t h _
      rw [List.drop_nil] at h
      cases h
    | cons c rest ih =>
      intro i t h hmin
      cases i with
      | zero =>
        rw [List.drop_zero] at h
        simp [searchTime, h]
      | succ i' =>
        have h0 : matchTimeAt (c :: rest) = none := by
          simpa using hmin 0 (Nat.succ_pos i')
        simp only [searchTime, h0]
        exact ih i' t (by simpa using h) (fun j hj => by
          simpa using hmin (j + 1) (Nat.succ_lt_succ hj))

/-- Witness for C10: the non-date `"77-88-9999 10:20:30"` is accepted by
the matcher, and in a line with a decoy the leftmost match is returned. -/
theorem claim_C10_witness :
    matchTimeAt "77-88-9999 10:20:30Z".toList = some "77-88-9999 10:20:30"
    ∧ searchTime "ab 12-34-5678 11:22:33 xy".toList = some "12-34-5678 11:22:33" := by
  constructor
  · have h := claim_C10_shape_only_first_match.1 '7' '7' '8' '8' '9' '9' '9' '9'
      '1' '0' '2' '0' '3' '0' ['Z'] (by decide) (by decide) (by decide) (by decide)
      (by decide) (by decide) (by decide) (by decide) (by decide) (by decide)
      (by decide) (by decide) (by decide) (by decide)
    simpa using h
  · exact claim_C10_shape_only_first_match.2.1 "ab 12-34-5678 11:22:33 xy".toList 3
      "12-34-5678 11:22:33" (by decide) (by decide)
